import Mathlib

/-!
Shallow embedding of the PaddleMIX components named by the specification:
the ControlNet img2img pipeline (`ppdiffusers/pipelines/controlnet/
pipeline_controlnet_img2img.py`), the LoRA loader (`ppdiffusers/loaders/
lora.py`) and the audio ASR app task (`paddlemix/appflow/audio_asr.py`).
Python floats are modelled as rationals, Python ints as integers, dicts as
association lists, raised exceptions as `Except.error`, and the opaque
pretrained-model callables as function parameters.
-/

namespace ControlNetImg2Img

/-- Python `int()` truncation toward zero on a rational. -/
def pyInt (q : ℚ) : ℤ :=
  if 0 ≤ q then ⌊q⌋ else ⌈q⌉

/-- One entry of the `controlnet_keep` schedule, from the list comprehension
`1.0 - float(i / len(timesteps) < s or (i + 1) / len(timesteps) > e)`
in `StableDiffusionControlNetImg2ImgPipeline.__call__`. -/
def controlnetKeepEntry (i N : ℕ) (s e : ℚ) : ℚ :=
  1 - (if (i : ℚ) / (N : ℚ) < s ∨ ((i : ℚ) + 1) / (N : ℚ) > e then 1 else 0)

/-- The full `controlnet_keep` table built before the denoising loop:
one row per timestep index, one column per
`(control_guidance_start, control_guidance_end)` pair. -/
def controlnetKeep (N : ℕ) (starts ends : List ℚ) : List (List ℚ) :=
  (List.range N).map fun i =>
    (starts.zip ends).map fun p => controlnetKeepEntry i N p.1 p.2

/-- `StableDiffusionControlNetImg2ImgPipeline.get_timesteps`:
`init_timestep = min(int(num_inference_steps * strength), num_inference_steps)`,
`t_start = max(num_inference_steps - init_timestep, 0)`,
returns `scheduler.timesteps[t_start * scheduler.order:]` together with
`num_inference_steps - t_start`. -/
def getTimesteps (timesteps : List ℤ) (order : ℕ) (numInferenceSteps : ℕ)
    (strength : ℚ) : List ℤ × ℤ :=
  let initTimestep : ℤ :=
    min (pyInt ((numInferenceSteps : ℚ) * strength)) (numInferenceSteps : ℤ)
  let tStart : ℤ := max ((numInferenceSteps : ℤ) - initTimestep) 0
  (timesteps.drop (tStart * (order : ℤ)).toNat, (numInferenceSteps : ℤ) - tStart)

/-- The per-pair validation loop at the end of
`StableDiffusionControlNetImg2ImgPipeline.check_inputs`:
for each `(start, end)` pair, raise if `start >= end`, then if `start < 0.0`,
then if `end > 1.0`. -/
def checkGuidancePairs : List (ℚ × ℚ) → Except String Unit
  | [] => Except.ok ()
  | (s, e) :: rest =>
    if s ≥ e then
      Except.error "control guidance start cannot be larger or equal to control guidance end."
    else if s < 0 then
      Except.error "control guidance start cannot be smaller than 0."
    else if e > 1 then
      Except.error "control guidance end cannot be larger than 1.0."
    else checkGuidancePairs rest

/-- The `control_guidance_start`/`control_guidance_end` validation of
`check_inputs`: the two lists must have the same length, then every zipped
pair is checked by `checkGuidancePairs`. -/
def checkControlGuidance (starts ends : List ℚ) : Except String Unit :=
  if starts.length ≠ ends.length then
    Except.error "control_guidance_start and control_guidance_end must have the same number of elements."
  else checkGuidancePairs (starts.zip ends)

/-- The batch-duplication tail of
`StableDiffusionControlNetImg2ImgPipeline.prepare_latents`, acting on the
batch dimension of `init_latents` (modelled as a list of latent rows).
`batch` is `batch_size * num_images_per_prompt`.  The boolean records
whether the deprecation warning was emitted. -/
def prepareLatentsDup {α : Type} (batch : ℕ) (init : List α) :
    Except String (List α × Bool) :=
  if batch > init.length ∧ batch % init.length = 0 then
    Except.ok ((List.replicate (batch / init.length) init).flatten, true)
  else if batch > init.length ∧ batch % init.length ≠ 0 then
    Except.error "Cannot duplicate `image` batch size to match text prompts."
  else
    Except.ok (init, false)

/-- The opaque framework calls made by one iteration of the denoising loop:
the UNet, the controlnet, `scheduler.scale_model_input` and
`scheduler.step`.  Tensors are modelled as lists of rationals (the batch
dimension is the list). -/
structure DenoiseEnv where
  unet : List ℚ → ℤ → List ℚ → List (List ℚ) → List ℚ → List ℚ
  controlnet : List ℚ → ℤ → List ℚ → ℚ → List (List ℚ) × List ℚ
  scaleModelInput : List ℚ → ℤ → List ℚ
  schedStep : List ℚ → ℤ → List ℚ → List ℚ

/-- `paddle.Tensor.chunk(chunks=2)` along the batch dimension. -/
def chunk2 (xs : List ℚ) : List ℚ × List ℚ :=
  (xs.take (xs.length / 2), xs.drop (xs.length / 2))

/-- Elementwise classifier-free-guidance combination
`noise_pred_uncond + guidance_scale * (noise_pred_text - noise_pred_uncond)`. -/
def cfgCombine (g : ℚ) (uncond text : List ℚ) : List ℚ :=
  List.zipWith (fun u t => u + g * (t - u)) uncond text

/-- One iteration of the denoising loop of
`StableDiffusionControlNetImg2ImgPipeline.__call__`:
conditionally double the latent batch, scale the model input, run the
controlnet (on the halved input in guess mode), run the UNet on the
controlnet residuals, conditionally apply classifier-free guidance, and
step the scheduler.  `do_classifier_free_guidance = guidance_scale > 1.0`. -/
def denoiseStep (env : DenoiseEnv) (guidanceScale : ℚ) (guessMode : Bool)
    (condScale : ℚ) (promptEmbeds latents : List ℚ) (t : ℤ) : List ℚ :=
  let doCfg : Bool := decide (guidanceScale > 1)
  let latentModelInput := if doCfg then latents ++ latents else latents
  let latentModelInput := env.scaleModelInput latentModelInput t
  let controlModelInput :=
    if guessMode && doCfg then env.scaleModelInput latents t else latentModelInput
  let controlnetPromptEmbeds :=
    if guessMode && doCfg then (chunk2 promptEmbeds).2 else promptEmbeds
  let cnOut := env.controlnet controlModelInput t controlnetPromptEmbeds condScale
  let downRes :=
    if guessMode && doCfg then cnOut.1.map (fun d => d.map (fun _ => (0 : ℚ)) ++ d)
    else cnOut.1
  let midRes :=
    if guessMode && doCfg then cnOut.2.map (fun _ => (0 : ℚ)) ++ cnOut.2
    else cnOut.2
  let noisePred := env.unet latentModelInput t promptEmbeds downRes midRes
  let noisePred :=
    if doCfg then cfgCombine guidanceScale (chunk2 noisePred).1 (chunk2 noisePred).2
    else noisePred
  env.schedStep noisePred t latents

end ControlNetImg2Img

namespace Lora

/-- A LoRA state dict: parameter-path keys mapped to opaque tensor payloads. -/
abbrev StateDict : Type := List (String × ℕ)

/-- Python substring containment, `needle in s`. -/
def strContainsSub (s needle : String) : Bool :=
  (List.range (s.toList.length + 1)).any fun i =>
    needle.toList.isPrefixOf (s.toList.drop i)

/-- The key test of the Kohya-format branch of `LoraLoaderMixin.lora_state_dict`:
`k.startswith("lora_te_") or k.startswith("lora_unet_") or
k.startswith("lora_te1_") or k.startswith("lora_te2_")`. -/
def isKohyaKey (k : String) : Bool :=
  k.startsWith "lora_te_" || k.startsWith "lora_unet_" ||
    k.startsWith "lora_te1_" || k.startsWith "lora_te2_"

/-- Modelled from the spec: `_convert_kohya_lora_to_diffusers` (imported from
`lora_conversion_utils`, whose source is not part of this corpus) performs
"state-dict key remapping" during adapter conversion and also extracts the
network-alpha scalars.  It is modelled as an entry-wise key remap through
the parameter `remap` (the SDXL block-index remap of
`_maybe_map_sgm_blocks_to_diffusers` composes into the same parameter),
returning an (empty, since no `.alpha` payloads are modelled) network-alpha
dict.  On an empty state dict any such conversion returns an empty dict. -/
def convertKohyaLora (remap : String → String) (sd : StateDict) :
    StateDict × Option StateDict :=
  (sd.map fun kv => (remap kv.1, kv.2), some [])

/-- The already-a-dict branch of `LoraLoaderMixin.lora_state_dict`:
`network_alphas = None`; when every key starts with one of the Kohya
prefixes, the state dict goes through the Kohya conversion, otherwise both
are returned as-is. -/
def loraStateDictFromDict (remap : String → String) (sd : StateDict) :
    StateDict × Option StateDict :=
  if sd.all (fun kv => isKohyaKey kv.1) then
    convertKohyaLora remap sd
  else (sd, Option.none)

/-- `LoraLoaderMixin.load_lora_weights` (and the identically structured
`StableDiffusionXLLoraLoaderMixin` override, which only composes an extra
block-index remap into the conversion and splits the text-encoder dicts
inside `loadTE`) on the dict input path: obtain the state dict from
`lora_state_dict`, require every key to contain `"lora"` — otherwise raise
`ValueError("Invalid LoRA checkpoint.")` — and only then load the weights
into the UNet and the text encoder(s), modelled by the opaque pipeline
transformers `loadUnet` and `loadTE`. -/
def loadLoraWeightsFromDict {π : Type} (remap : String → String)
    (loadUnet loadTE : StateDict → Option StateDict → π → π)
    (sd : StateDict) (p : π) : Except String π :=
  let r := loraStateDictFromDict remap sd
  if r.1.all (fun kv => strContainsSub kv.1 "lora") then
    Except.ok (loadTE r.1 r.2 (loadUnet r.1 r.2 p))
  else
    Except.error "Invalid LoRA checkpoint."

/-- The `num_fused_loras` update of `LoraLoaderMixin.fuse_lora`: the counter
is incremented exactly when `fuse_unet or fuse_text_encoder`. -/
def fuseLoraCount (fuseUnet fuseTextEncoder : Bool) (numFusedLoras : ℤ) : ℤ :=
  if fuseUnet || fuseTextEncoder then numFusedLoras + 1 else numFusedLoras

/-- The `num_fused_loras` update of `LoraLoaderMixin.unfuse_lora`: the
counter is decremented unconditionally (the flags only select which
sub-models get their weights un-merged). -/
def unfuseLoraCount (unfuseUnet unfuseTextEncoder : Bool)
    (numFusedLoras : ℤ) : ℤ :=
  numFusedLoras - 1

end Lora

namespace AppFlow

/-- Python values appearing in the ASR task's shared input dict. -/
inductive PyVal : Type
  | pyNone : PyVal
  | pyStr : String → PyVal
  | pyInt : ℤ → PyVal
deriving DecidableEq

/-- The stringly-typed shared input dict of an app task. -/
abbrev Dict : Type := List (String × PyVal)

/-- Python `d[k]` as an option: `some` of the stored value, `none` when the
key is absent. -/
def dictGet : Dict → String → Option PyVal
  | [], _ => Option.none
  | kv :: rest, k => if kv.1 = k then some kv.2 else dictGet rest k

/-- Python `d.get(k, dflt)`. -/
def dictGetD (d : Dict) (k : String) (dflt : PyVal) : PyVal :=
  (dictGet d k).getD dflt

/-- Python `d[k] = v`: replace the value at an existing key, append
otherwise. -/
def dictSet (d : Dict) (k : String) (v : PyVal) : Dict :=
  if d.any (fun kv => kv.1 = k) then
    d.map (fun kv => if kv.1 = k then (k, v) else kv)
  else d ++ [(k, v)]

/-- `AudioASRTask._preprocess`: assert `inputs.get("audio", None)` is not
`None` (message "The image is None"), assert `inputs.get("prompt")` is not
`None` (message "The prompt is None"), return the inputs unchanged.  Failed
assertions are modelled as `Except.error`. -/
def audioASRPreprocess (d : Dict) : Except String Dict :=
  if dictGetD d "audio" PyVal.pyNone = PyVal.pyNone then
    Except.error "The image is None"
  else if dictGetD d "prompt" PyVal.pyNone = PyVal.pyNone then
    Except.error "The prompt is None"
  else Except.ok d

/-- `AudioASRTask._run_model`: read the executor options with their
defaults, call the (opaque) Whisper executor `exec` on them and
`inputs["audio"]` to obtain `result["text"]`, then set
`inputs["prompt"] = inputs["prompt"].format(result["text"])` (Python
`str.format` is the opaque parameter `fmt`) and return the dict.  A missing
`"audio"`/`"prompt"` key or a non-string prompt is a raised exception. -/
def audioASRRunModel
    (exec : PyVal → PyVal → PyVal → PyVal → PyVal → PyVal → String)
    (fmt : String → String → String) (d : Dict) : Except String Dict :=
  let m := dictGetD d "model" (PyVal.pyStr "whisper")
  let tk := dictGetD d "task" (PyVal.pyStr "transcribe")
  let sr := dictGetD d "sample_rate" (PyVal.pyInt 16000)
  let cfg := dictGetD d "config" PyVal.pyNone
  let ck := dictGetD d "ckpt_path" PyVal.pyNone
  match dictGet d "audio" with
  | Option.none => Except.error "KeyError: audio"
  | some audio =>
    let text := exec m tk sr cfg ck audio
    match dictGet d "prompt" with
    | some (PyVal.pyStr p) => Except.ok (dictSet d "prompt" (PyVal.pyStr (fmt p text)))
    | some _ => Except.error "AttributeError: format"
    | Option.none => Except.error "KeyError: prompt"

/-- `AudioASRTask._postprocess`: returns its input unchanged. -/
def audioASRPostprocess (d : Dict) : Dict := d

end AppFlow


/-! ## Theorems -/

namespace ControlNetImg2Img

/-- Claim C1: the per-controlnet conditioning scale at denoising step `i` of
`N` total timesteps is the supplied `controlnet_conditioning_scale` exactly
when the step lies inside the `[start, end)` window of fractions of total
steps: the keep factor is `1.0` iff `i/N ≥ start` and the step has not
passed `end` (`(i+1)/N ≤ end`), and `0.0` otherwise, so the conditioning
scale `scale * keep` is `scale` inside the window and `0` outside. -/
theorem controlnetKeep_window_spec (i N : ℕ) (s e scale : ℚ) :
    (controlnetKeepEntry i N s e = 1 ↔
      s ≤ (i : ℚ) / (N : ℚ) ∧ ((i : ℚ) + 1) / (N : ℚ) ≤ e) ∧
    (controlnetKeepEntry i N s e = 0 ↔
      ¬(s ≤ (i : ℚ) / (N : ℚ) ∧ ((i : ℚ) + 1) / (N : ℚ) ≤ e)) ∧
    (scale * controlnetKeepEntry i N s e =
      if s ≤ (i : ℚ) / (N : ℚ) ∧ ((i : ℚ) + 1) / (N : ℚ) ≤ e then scale
      else 0) := by
  have hiff : ((i : ℚ) / (N : ℚ) < s ∨ ((i : ℚ) + 1) / (N : ℚ) > e) ↔
      ¬(s ≤ (i : ℚ) / (N : ℚ) ∧ ((i : ℚ) + 1) / (N : ℚ) ≤ e) := by
    rw [not_and_or, not_le, not_le]
  by_cases h : s ≤ (i : ℚ) / (N : ℚ) ∧ ((i : ℚ) + 1) / (N : ℚ) ≤ e
  · have h2 : ¬((i : ℚ) / (N : ℚ) < s ∨ ((i : ℚ) + 1) / (N : ℚ) > e) := by
      rw [hiff]; exact not_not_intro h
    refine ⟨?_, ?_, ?_⟩ <;> simp [controlnetKeepEntry, h2, h]
  · have h2 : (i : ℚ) / (N : ℚ) < s ∨ ((i : ℚ) + 1) / (N : ℚ) > e := hiff.mpr h
    refine ⟨?_, ?_, ?_⟩ <;> simp [controlnetKeepEntry, h2, h]

/-- Claim C4: for `num_inference_steps ≥ 1` and `strength ∈ [0, 1]`,
`get_timesteps` returns as its second component exactly
`min(int(num_inference_steps * strength), num_inference_steps)` effective
steps (which equals `num_inference_steps - t_start` for
`t_start = max(num_inference_steps - min(int(num_inference_steps * strength),
num_inference_steps), 0)`), and the returned timestep list is the
scheduler's timesteps with the first `t_start * scheduler.order` entries
dropped. -/
theorem getTimesteps_spec (timesteps : List ℤ) (order n : ℕ) (strength : ℚ)
    (h1 : 1 ≤ n) (h0 : 0 ≤ strength) (hs : strength ≤ 1) :
    (getTimesteps timesteps order n strength).2 =
      min ⌊(n : ℚ) * strength⌋ (n : ℤ) ∧
    (getTimesteps timesteps order n strength).2 =
      (n : ℤ) - max ((n : ℤ) - min ⌊(n : ℚ) * strength⌋ (n : ℤ)) 0 ∧
    (getTimesteps timesteps order n strength).1 =
      timesteps.drop
        ((max ((n : ℤ) - min ⌊(n : ℚ) * strength⌋ (n : ℤ)) 0 * (order : ℤ)).toNat) := by
  have hq : (0 : ℚ) ≤ (n : ℚ) * strength := mul_nonneg (by positivity) h0
  have hpy : pyInt ((n : ℚ) * strength) = ⌊(n : ℚ) * strength⌋ := by
    simp [pyInt, hq]
  refine ⟨?_, ?_, ?_⟩
  · simp only [getTimesteps, hpy]
    omega
  · simp only [getTimesteps, hpy]
  · simp only [getTimesteps, hpy]

/-- Claim C4 witness: with 3 scheduler timesteps, order 1, 2 inference steps
and strength 1/2, the effective number of steps is
`min(int(2 * 1/2), 2) = 1`. -/
theorem getTimesteps_spec_witness :
    (getTimesteps [999, 500, 1] 1 2 (1/2)).2 =
      min ⌊(2 : ℚ) * (1/2)⌋ (2 : ℤ) ∧
    (getTimesteps [999, 500, 1] 1 2 (1/2)).2 =
      (2 : ℤ) - max ((2 : ℤ) - min ⌊(2 : ℚ) * (1/2)⌋ (2 : ℤ)) 0 ∧
    (getTimesteps [999, 500, 1] 1 2 (1/2)).1 =
      [999, 500, 1].drop
        ((max ((2 : ℤ) - min ⌊(2 : ℚ) * (1/2)⌋ (2 : ℤ)) 0 * (1 : ℤ)).toNat) :=
  getTimesteps_spec [999, 500, 1] 1 2 (1/2) (by norm_num) (by norm_num)
    (by norm_num)

/-- Helper for claim C6: the per-pair check loop errors exactly when some
zipped pair violates `start < end`, `start ≥ 0` or `end ≤ 1`. -/
theorem checkGuidancePairs_error_iff (l : List (ℚ × ℚ)) :
    (∃ msg, checkGuidancePairs l = Except.error msg) ↔
      ∃ p ∈ l, p.1 ≥ p.2 ∨ p.1 < 0 ∨ p.2 > 1 := by
  induction l with
  | nil => simp [checkGuidancePairs]
  | cons hd tl ih =>
    obtain ⟨s, e⟩ := hd
    simp only [checkGuidancePairs]
    by_cases h1 : s ≥ e
    · rw [if_pos h1]
      exact ⟨fun _ => ⟨(s, e), List.mem_cons_self _ _, Or.inl h1⟩,
        fun _ => ⟨_, rfl⟩⟩
    · rw [if_neg h1]
      by_cases h2 : s < 0
      · rw [if_pos h2]
        exact ⟨fun _ => ⟨(s, e), List.mem_cons_self _ _, Or.inr (Or.inl h2)⟩,
          fun _ => ⟨_, rfl⟩⟩
      · rw [if_neg h2]
        by_cases h3 : e > 1
        · rw [if_pos h3]
          exact ⟨fun _ => ⟨(s, e), List.mem_cons_self _ _, Or.inr (Or.inr h3)⟩,
            fun _ => ⟨_, rfl⟩⟩
        · rw [if_neg h3, ih]
          constructor
          · rintro ⟨p, hp, hcond⟩
            exact ⟨p, List.mem_cons_of_mem _ hp, hcond⟩
          · rintro ⟨p, hp, hcond⟩
            rcases List.mem_cons.mp hp with heq | hmem
            · subst heq
              rcases hcond with h | h | h
              · exact absurd h h1
              · exact absurd h h2
              · exact absurd h h3
            · exact ⟨p, hmem, hcond⟩

/-- Claim C6: the `control_guidance_start`/`control_guidance_end` validation
of `check_inputs` raises a `ValueError` exactly when the two lists have
different lengths, or some zipped pair `(start, end)` has `start ≥ end`,
`start < 0`, or `end > 1`. -/
theorem checkControlGuidance_error_iff (starts ends : List ℚ) :
    (∃ msg, checkControlGuidance starts ends = Except.error msg) ↔
      starts.length ≠ ends.length ∨
        ∃ p ∈ starts.zip ends, p.1 ≥ p.2 ∨ p.1 < 0 ∨ p.2 > 1 := by
  unfold checkControlGuidance
  by_cases h : starts.length ≠ ends.length
  · rw [if_pos h]
    exact ⟨fun _ => Or.inl h, fun _ => ⟨_, rfl⟩⟩
  · rw [if_neg h, checkGuidancePairs_error_iff]
    exact ⟨Or.inr, fun hc => hc.elim (fun hl => absurd hl h) id⟩

/-- Claim C7: in `prepare_latents`, when the requested effective batch size
exceeds the number of encoded initial images and divides evenly, the
deprecation path fires (warning flag `true`) and the initial latents are
duplicated to exactly match the batch; when it does not divide evenly, a
`ValueError` is raised; otherwise the latents pass through unchanged with
no warning. -/
theorem prepareLatentsDup_spec {α : Type} (batch : ℕ) (init : List α)
    (hpos : 0 < init.length) :
    (init.length < batch → batch % init.length = 0 →
      prepareLatentsDup batch init =
        Except.ok ((List.replicate (batch / init.length) init).flatten, true) ∧
      (List.replicate (batch / init.length) init).flatten.length = batch) ∧
    (init.length < batch → batch % init.length ≠ 0 →
      prepareLatentsDup batch init =
        Except.error "Cannot duplicate `image` batch size to match text prompts.") ∧
    (batch ≤ init.length →
      prepareLatentsDup batch init = Except.ok (init, false)) := by
  refine ⟨fun hgt hmod => ⟨?_, ?_⟩, fun hgt hmod => ?_, fun hle => ?_⟩
  · unfold prepareLatentsDup
    rw [if_pos ⟨hgt, hmod⟩]
  · rw [List.length_flatten, List.map_replicate, List.sum_replicate,
      smul_eq_mul]
    exact Nat.div_mul_cancel (Nat.dvd_of_mod_eq_zero hmod)
  · unfold prepareLatentsDup
    rw [if_neg (fun hc => hmod hc.2), if_pos ⟨hgt, hmod⟩]
  · unfold prepareLatentsDup
    rw [if_neg (fun hc => absurd hle (not_le.mpr hc.1)),
      if_neg (fun hc => absurd hle (not_le.mpr hc.1))]

/-- Claim C7 witness: 4 requested images from 2 initial latents duplicates
them (warning path), 3 requested from 2 raises, 2 from 2 passes through. -/
theorem prepareLatentsDup_spec_witness :
    prepareLatentsDup 4 [10, 20] = Except.ok ([10, 20, 10, 20], true) ∧
    prepareLatentsDup 3 [10, 20] =
      Except.error "Cannot duplicate `image` batch size to match text prompts." ∧
    prepareLatentsDup 2 [10, 20] = Except.ok ([10, 20], false) := by
  have h4 := prepareLatentsDup_spec 4 [10, 20] (by decide)
  have h3 := prepareLatentsDup_spec 3 [10, 20] (by decide)
  have h2 := prepareLatentsDup_spec 2 [10, 20] (by decide)
  refine ⟨?_, ?_, ?_⟩
  · rw [(h4.1 (by decide) (by decide)).1]; rfl
  · exact h3.2.1 (by decide) (by decide)
  · exact h2.2.2 (by decide)

end ControlNetImg2Img

namespace ControlNetImg2Img

/-- Claim C3: in each denoising iteration (guess mode off), when
`guidance_scale > 1.0` the latent batch is doubled by concatenation, the
controlnet is invoked and its residuals are fed to the UNet, the final
noise prediction is `noise_pred_uncond + guidance_scale *
(noise_pred_text - noise_pred_uncond)` over the two chunks, and the
scheduler's step produces the next latents; when `guidance_scale ≤ 1.0`
the batch is not doubled and no guidance combination is applied. -/
theorem denoiseStep_spec (env : DenoiseEnv) (g condScale : ℚ)
    (promptEmbeds latents : List ℚ) (t : ℤ) :
    (g > 1 →
      denoiseStep env g false condScale promptEmbeds latents t =
        (let inp := env.scaleModelInput (latents ++ latents) t
         let cn := env.controlnet inp t promptEmbeds condScale
         let np := env.unet inp t promptEmbeds cn.1 cn.2
         env.schedStep (cfgCombine g (chunk2 np).1 (chunk2 np).2) t latents)) ∧
    (¬ g > 1 →
      denoiseStep env g false condScale promptEmbeds latents t =
        (let inp := env.scaleModelInput latents t
         let cn := env.controlnet inp t promptEmbeds condScale
         env.schedStep (env.unet inp t promptEmbeds cn.1 cn.2) t latents)) := by
  constructor
  · intro h
    simp [denoiseStep, h]
  · intro h
    simp [denoiseStep, h]

/-- A concrete `DenoiseEnv` used to exercise `denoiseStep`. -/
def sampleEnv : DenoiseEnv :=
  ⟨fun inp _ _ _ _ => inp, fun inp _ _ sc => ([[sc]], inp), fun x _ => x,
    fun np _ _ => np⟩

/-- Claim C3 witness: with the sample environment, guidance scale 2 doubles
the batch and the guidance combination collapses back to the two equal
chunks, while guidance scale 1 leaves the latents untouched. -/
theorem denoiseStep_spec_witness :
    denoiseStep sampleEnv 2 false 1 [] [3, 4] 0 = [3, 4] ∧
    denoiseStep sampleEnv 1 false 1 [] [3, 4] 0 = [3, 4] := by
  have h2 := (denoiseStep_spec sampleEnv 2 1 [] [3, 4] 0).1 (by norm_num)
  have h1 := (denoiseStep_spec sampleEnv 1 1 [] [3, 4] 0).2 (by norm_num)
  constructor
  · rw [h2]
    show cfgCombine 2 (chunk2 [3, 4, 3, 4]).1 (chunk2 [3, 4, 3, 4]).2 = [3, 4]
    norm_num [cfgCombine, chunk2]
  · rw [h1]
    rfl

end ControlNetImg2Img

namespace Lora

/-- Claim C2: on the dict input path of `load_lora_weights` (base mixin and
the identically structured SDXL override, whose extra block-index remap is
absorbed into `remap`), if some key of the state dict produced by
`lora_state_dict` does not contain the substring `"lora"`, the call raises
`ValueError("Invalid LoRA checkpoint.")` and no model is modified (the
weight-loading transformers `loadUnet`/`loadTE` are never applied). -/
theorem loadLoraWeights_invalid {π : Type} (remap : String → String)
    (loadUnet loadTE : StateDict → Option StateDict → π → π)
    (sd : StateDict) (p : π)
    (h : ∃ kv ∈ (loraStateDictFromDict remap sd).1,
      strContainsSub kv.1 "lora" = false) :
    loadLoraWeightsFromDict remap loadUnet loadTE sd p =
      Except.error "Invalid LoRA checkpoint." := by
  obtain ⟨kv, hmem, hkv⟩ := h
  have hall : ¬ ((loraStateDictFromDict remap sd).1.all
      fun kv => strContainsSub kv.1 "lora") = true := by
    intro hc
    rw [List.all_eq_true] at hc
    have := hc kv hmem
    rw [hkv] at this
    exact Bool.false_ne_true this
  simp only [loadLoraWeightsFromDict]
  rw [if_neg hall]

/-- Claim C2 witness: a one-entry state dict whose key `"foo"` lacks the
substring `"lora"` is rejected as an invalid checkpoint. -/
theorem loadLoraWeights_invalid_witness :
    loadLoraWeightsFromDict (fun k => k) (fun _ _ p => p) (fun _ _ p => p)
      [("foo", 0)] (0 : ℕ) = Except.error "Invalid LoRA checkpoint." :=
  loadLoraWeights_invalid (fun k => k) (fun _ _ p => p) (fun _ _ p => p)
    [("foo", 0)] 0 ⟨("foo", 0), by decide, by decide⟩

/-- Claim C10: an empty dict passed as
`pretrained_model_name_or_path_or_dict` is not rejected:
`lora_state_dict` returns the empty state dict unchanged, the
all-keys-contain-`"lora"` predicate holds vacuously, and
`load_lora_weights` does not raise `ValueError("Invalid LoRA checkpoint.")`
but proceeds to the loading calls. -/
theorem loadLoraWeights_emptyDict {π : Type} (remap : String → String)
    (loadUnet loadTE : StateDict → Option StateDict → π → π) (p : π) :
    (loraStateDictFromDict remap ([] : StateDict)).1 = [] ∧
    (([] : StateDict).all fun kv => strContainsSub kv.1 "lora") = true ∧
    ∃ p', loadLoraWeightsFromDict remap loadUnet loadTE [] p =
      Except.ok p' :=
  ⟨rfl, rfl, ⟨loadTE [] (some []) (loadUnet [] (some []) p), rfl⟩⟩

/-- Claim C5: fusing is explicitly reversible on the `num_fused_loras`
counter: when `fuse_unet or fuse_text_encoder` holds, `fuse_lora`
increments the counter by exactly 1, `unfuse_lora` decrements it by exactly
1 (for any flag combination), and a fuse followed by an unfuse restores the
counter to its value before the fuse. -/
theorem fuseLora_unfuseLora_counter (fuseUnet fuseTextEncoder unfuseUnet
    unfuseTextEncoder : Bool) (n : ℤ)
    (h : (fuseUnet || fuseTextEncoder) = true) :
    fuseLoraCount fuseUnet fuseTextEncoder n = n + 1 ∧
    (∀ m : ℤ, unfuseLoraCount unfuseUnet unfuseTextEncoder m = m - 1) ∧
    unfuseLoraCount unfuseUnet unfuseTextEncoder
      (fuseLoraCount fuseUnet fuseTextEncoder n) = n := by
  unfold fuseLoraCount unfuseLoraCount
  rw [if_pos h]
  exact ⟨rfl, fun m => rfl, by ring⟩

/-- Claim C5 witness: fusing only the UNet at counter 5 gives 6, and the
matching unfuse restores 5. -/
theorem fuseLora_unfuseLora_counter_witness :
    fuseLoraCount true false 5 = 6 ∧
    unfuseLoraCount true false (fuseLoraCount true false 5) = 5 := by
  have h := fuseLora_unfuseLora_counter true false true false 5 (by decide)
  exact ⟨h.1, h.2.2⟩

end Lora

namespace AppFlow

/-- Helper: `d.get(k, None)` is `None` exactly when the key is absent or
stored as `None`. -/
theorem dictGetD_none_iff (d : Dict) (k : String) :
    dictGetD d k PyVal.pyNone = PyVal.pyNone ↔
      dictGet d k = Option.none ∨ dictGet d k = some PyVal.pyNone := by
  cases h : dictGet d k with
  | none => simp [dictGetD, h]
  | some v => simp [dictGetD, h]

/-- Claim C8: `AudioASRTask._preprocess` raises an assertion error exactly
when the input dict lacks the key `"audio"` (or maps it to `None`) or
lacks the key `"prompt"` (or maps it to `None`); otherwise it returns the
input dict unchanged. -/
theorem audioASRPreprocess_spec (d : Dict) :
    ((∃ msg, audioASRPreprocess d = Except.error msg) ↔
      (dictGet d "audio" = Option.none ∨
        dictGet d "audio" = some PyVal.pyNone) ∨
      (dictGet d "prompt" = Option.none ∨
        dictGet d "prompt" = some PyVal.pyNone)) ∧
    (¬((dictGet d "audio" = Option.none ∨
        dictGet d "audio" = some PyVal.pyNone) ∨
      (dictGet d "prompt" = Option.none ∨
        dictGet d "prompt" = some PyVal.pyNone)) →
      audioASRPreprocess d = Except.ok d) := by
  by_cases ha : dictGetD d "audio" PyVal.pyNone = PyVal.pyNone
  · have ha' := (dictGetD_none_iff d "audio").mp ha
    constructor
    · exact ⟨fun _ => Or.inl ha', fun _ => by
        simp [audioASRPreprocess, ha]⟩
    · intro hc
      exact absurd (Or.inl ha') hc
  · have ha' : ¬(dictGet d "audio" = Option.none ∨
        dictGet d "audio" = some PyVal.pyNone) := fun hc =>
      ha ((dictGetD_none_iff d "audio").mpr hc)
    by_cases hp : dictGetD d "prompt" PyVal.pyNone = PyVal.pyNone
    · have hp' := (dictGetD_none_iff d "prompt").mp hp
      constructor
      · exact ⟨fun _ => Or.inr hp', fun _ => by
          simp [audioASRPreprocess, ha, hp]⟩
      · intro hc
        exact absurd (Or.inr hp') hc
    · have hp' : ¬(dictGet d "prompt" = Option.none ∨
          dictGet d "prompt" = some PyVal.pyNone) := fun hc =>
        hp ((dictGetD_none_iff d "prompt").mpr hc)
      constructor
      · constructor
        · rintro ⟨msg, hmsg⟩
          simp [audioASRPreprocess, ha, hp] at hmsg
        · rintro (hc | hc)
          · exact absurd hc ha'
          · exact absurd hc hp'
      · intro _
        simp [audioASRPreprocess, ha, hp]

/-- Claim C8 witness: a dict with both keys present and non-`None` passes
through unchanged, while a dict missing `"audio"` raises. -/
theorem audioASRPreprocess_spec_witness :
    audioASRPreprocess
      [("audio", PyVal.pyStr "a.wav"), ("prompt", PyVal.pyStr "transcribe")] =
      Except.ok
        [("audio", PyVal.pyStr "a.wav"), ("prompt", PyVal.pyStr "transcribe")] ∧
    (∃ msg, audioASRPreprocess [("prompt", PyVal.pyStr "transcribe")] =
      Except.error msg) := by
  constructor
  · exact (audioASRPreprocess_spec
      [("audio", PyVal.pyStr "a.wav"), ("prompt", PyVal.pyStr "transcribe")]).2
      (by decide)
  · exact (audioASRPreprocess_spec [("prompt", PyVal.pyStr "transcribe")]).1.mpr
      (Or.inl (Or.inl (by decide)))

/-- Helper: writing a key stores its value. -/
theorem dictGet_dictSet_same (d : Dict) (k : String) (v : PyVal) :
    dictGet (dictSet d k v) k = some v := by
  unfold dictSet
  by_cases hany : (d.any fun kv => kv.1 = k) = true
  · rw [if_pos hany]
    induction d with
    | nil => simp at hany
    | cons hd tl ih =>
      by_cases h1 : hd.1 = k
      · simp [dictGet, h1]
      · have h2 : (tl.any fun kv => kv.1 = k) = true := by
          simpa [List.any_cons, h1] using hany
        simp [dictGet, h1, ih h2]
  · rw [if_neg hany]
    induction d with
    | nil => simp [dictGet]
    | cons hd tl ih =>
      have h1 : ¬ hd.1 = k := by
        intro hc
        exact hany (by simp [List.any_cons, hc])
      have h2 : ¬ (tl.any fun kv => kv.1 = k) = true := by
        intro hc
        exact hany (by simp [List.any_cons, hc])
      simp only [List.cons_append]
      simpa [dictGet, h1] using ih h2

/-- Helper: writing a key leaves every other key's value unchanged. -/
theorem dictGet_dictSet_other (d : Dict) (k k' : String) (v : PyVal)
    (h : k' ≠ k) :
    dictGet (dictSet d k v) k' = dictGet d k' := by
  unfold dictSet
  by_cases hany : (d.any fun kv => kv.1 = k) = true
  · rw [if_pos hany]
    clear hany
    induction d with
    | nil => simp
    | cons hd tl ih =>
      by_cases h1 : hd.1 = k
      · have hkk : ¬ (k = k') := fun hc => h hc.symm
        simp [dictGet, h1, hkk, ih]
      · by_cases h2 : hd.1 = k'
        · simp [dictGet, h1, h2, h]
        · simp [dictGet, h1, h2, ih]
  · rw [if_neg hany]
    clear hany
    induction d with
    | nil =>
      have hkk : ¬ (k = k') := fun hc => h hc.symm
      simp [dictGet, hkk]
    | cons hd tl ih =>
      by_cases h2 : hd.1 = k'
      · simp [dictGet, h2]
      · simp [dictGet, h2, ih]

/-- Claim C9: for every input dict that passed `_preprocess` (with a string
prompt), `AudioASRTask._run_model` returns the shared dict with every key
other than `"prompt"` mapped to its original value and `"prompt"` replaced
by the original prompt formatted with the ASR result text, and
`_postprocess` returns its input unchanged. -/
theorem audioASRRunModel_frame
    (exec : PyVal → PyVal → PyVal → PyVal → PyVal → PyVal → String)
    (fmt : String → String → String) (d : Dict) (a : PyVal) (p : String)
    (ha : dictGet d "audio" = some a)
    (hp : dictGet d "prompt" = some (PyVal.pyStr p)) :
    ∃ r, audioASRRunModel exec fmt d = Except.ok r ∧
      (∀ k, k ≠ "prompt" → dictGet r k = dictGet d k) ∧
      dictGet r "prompt" = some (PyVal.pyStr (fmt p
        (exec (dictGetD d "model" (PyVal.pyStr "whisper"))
          (dictGetD d "task" (PyVal.pyStr "transcribe"))
          (dictGetD d "sample_rate" (PyVal.pyInt 16000))
          (dictGetD d "config" PyVal.pyNone)
          (dictGetD d "ckpt_path" PyVal.pyNone) a))) ∧
      audioASRPostprocess r = r := by
  refine ⟨dictSet d "prompt" (PyVal.pyStr (fmt p
    (exec (dictGetD d "model" (PyVal.pyStr "whisper"))
      (dictGetD d "task" (PyVal.pyStr "transcribe"))
      (dictGetD d "sample_rate" (PyVal.pyInt 16000))
      (dictGetD d "config" PyVal.pyNone)
      (dictGetD d "ckpt_path" PyVal.pyNone) a))), ?_, ?_, ?_, rfl⟩
  · unfold audioASRRunModel
    rw [ha, hp]
  · intro k hk
    exact dictGet_dictSet_other d "prompt" k _ hk
  · exact dictGet_dictSet_same d "prompt" _

/-- Claim C9 witness: on a concrete dict, executor and format function, the
run-model step rewrites only the prompt entry. -/
theorem audioASRRunModel_frame_witness :
    ∃ r, audioASRRunModel (fun _ _ _ _ _ _ => "hi") (fun p t => p ++ t)
        [("audio", PyVal.pyStr "a.wav"), ("prompt", PyVal.pyStr "Q: ")] =
        Except.ok r ∧
      (∀ k, k ≠ "prompt" → dictGet r k = dictGet
        [("audio", PyVal.pyStr "a.wav"), ("prompt", PyVal.pyStr "Q: ")] k) ∧
      dictGet r "prompt" = some (PyVal.pyStr ((fun p t => p ++ t) "Q: "
        ((fun _ _ _ _ _ _ => "hi")
          (dictGetD [("audio", PyVal.pyStr "a.wav"),
            ("prompt", PyVal.pyStr "Q: ")] "model" (PyVal.pyStr "whisper"))
          (dictGetD [("audio", PyVal.pyStr "a.wav"),
            ("prompt", PyVal.pyStr "Q: ")] "task" (PyVal.pyStr "transcribe"))
          (dictGetD [("audio", PyVal.pyStr "a.wav"),
            ("prompt", PyVal.pyStr "Q: ")] "sample_rate" (PyVal.pyInt 16000))
          (dictGetD [("audio", PyVal.pyStr "a.wav"),
            ("prompt", PyVal.pyStr "Q: ")] "config" PyVal.pyNone)
          (dictGetD [("audio", PyVal.pyStr "a.wav"),
            ("prompt", PyVal.pyStr "Q: ")] "ckpt_path" PyVal.pyNone)
          (PyVal.pyStr "a.wav")))) ∧
      audioASRPostprocess r = r :=
  audioASRRunModel_frame (fun _ _ _ _ _ _ => "hi") (fun p t => p ++ t)
    [("audio", PyVal.pyStr "a.wav"), ("prompt", PyVal.pyStr "Q: ")]
    (PyVal.pyStr "a.wav") "Q: " (by decide) (by decide)

end AppFlow
